import Mathlib

/-!
Verification of the student-to-classroom allocation repository
(`multiple_knapsacks_problem.py`, `problema_demanda_reprimida.py`).

The Python sources are shallowly embedded here:
* the instance loaders `carregar_instancia_mkp` and `carregar_instancia`
  are modelled as total functions from the list of raw file lines into
  `Except PyError`, with Python list indexing, slicing, `str.strip`,
  `str.split` and `int()` modelled explicitly;
* the reference-to-bin mapping and the MIP model built for the solver are
  modelled as predicates on 0/1 assignments `x : Nat → Nat → Bool`
  (a feasible solution is exactly a point satisfying every constraint the
  Python code adds to the solver).
-/

/-- Errors raised by the Python code while loading an instance.
`indexError` models `IndexError` (raised by out-of-range list indexing),
`valueError s` models `ValueError` from `int(s)` on a non-numeric literal,
`unpackPoucos n` and `unpackMuitos` model the `ValueError`s raised when
unpacking `peso, valor, referencia = map(int, line.split())` finds fewer
(n) or more than three values. -/
inductive PyError where
  | indexError : PyError
  | valueError : String → PyError
  | unpackPoucos : Nat → PyError
  | unpackMuitos : PyError
deriving DecidableEq, Repr

instance instDecEqExcept {ε α : Type} [DecidableEq ε] [DecidableEq α] :
    DecidableEq (Except ε α) := fun a b =>
  match a, b with
  | Except.ok x, Except.ok y =>
      decidable_of_iff (x = y) (by constructor <;> (intro h; first | rw [h] | injection h))
  | Except.error e, Except.error f =>
      decidable_of_iff (e = f) (by constructor <;> (intro h; first | rw [h] | injection h))
  | Except.ok _, Except.error _ => isFalse (fun h => Except.noConfusion h)
  | Except.error _, Except.ok _ => isFalse (fun h => Except.noConfusion h)

/-- The message CPython attaches to each of the modelled exceptions. -/
def mensagemErro : PyError → String
  | PyError.indexError => "list index out of range"
  | PyError.valueError s => "invalid literal for int() with base 10: " ++ s
  | PyError.unpackPoucos n =>
      "not enough values to unpack (expected 3, got " ++ toString n ++ ")"
  | PyError.unpackMuitos => "too many values to unpack (expected 3)"

/-- Python `str.strip()`: drop leading and trailing whitespace. -/
def pyStrip (s : String) : String :=
  String.mk (((s.data.dropWhile Char.isWhitespace).reverse.dropWhile
      Char.isWhitespace).reverse)

/-- Helper for `splitWs`: accumulates the current token (reversed) while
scanning the character list, dropping empty tokens as Python `split()`
does. -/
def tokensAux (acc : List Char) : List Char → List (List Char)
  | [] => if acc = [] then [] else [acc.reverse]
  | c :: cs =>
      if c.isWhitespace then
        if acc = [] then tokensAux [] cs else acc.reverse :: tokensAux [] cs
      else tokensAux (c :: acc) cs

/-- Python `str.split()` with no argument: split on whitespace runs,
discarding empty tokens. -/
def splitWs (s : String) : List String :=
  (tokensAux [] s.data).map String.mk

/-- Accumulating decimal reader: returns `none` on the first non-digit. -/
def lerDigitosAux (acc : Nat) : List Char → Option Nat
  | [] => some acc
  | c :: cs =>
      if c.isDigit then lerDigitosAux (10 * acc + (c.toNat - 48)) cs else none

/-- A non-empty all-digit character list read as a natural number. -/
def lerNat (cs : List Char) : Option Nat :=
  match cs with
  | [] => none
  | _ => lerDigitosAux 0 cs

/-- Python `int(s)` on an already-stripped token: an optional sign followed
by at least one decimal digit; anything else raises `ValueError`. (CPython
additionally accepts underscore digit separators and non-ASCII digits;
the repository's instance files use plain ASCII decimal literals.) -/
def pyInt (s : String) : Except PyError Int :=
  match s.data with
  | '+' :: cs =>
      match lerNat cs with
      | some n => Except.ok (n : Int)
      | none => Except.error (PyError.valueError s)
  | '-' :: cs =>
      match lerNat cs with
      | some n => Except.ok (-(n : Int))
      | none => Except.error (PyError.valueError s)
  | cs =>
      match lerNat cs with
      | some n => Except.ok (n : Int)
      | none => Except.error (PyError.valueError s)

/-- The line preprocessing both loaders perform:
`[linha.strip() for linha in linhas if linha.strip()]`. -/
def cleanLines (raw : List String) : List String :=
  (raw.map pyStrip).filter (fun l => l != "")

/-- Python list indexing `l[i]`: negative indices count from the end,
out-of-range indices raise `IndexError`. -/
def pyIndex (l : List String) (i : Int) : Except PyError String :=
  let j : Int := if i < 0 then (l.length : Int) + i else i
  if 0 ≤ j then
    match l.get? j.toNat with
    | some s => Except.ok s
    | none => Except.error PyError.indexError
  else Except.error PyError.indexError

/-- Python slicing `l[a:b]`: indices are clamped, never raising. -/
def pySlice (l : List String) (a b : Int) : List String :=
  let n : Int := l.length
  let s := if a < 0 then max (n + a) 0 else min a n
  let e := if b < 0 then max (n + b) 0 else min b n
  (l.drop s.toNat).take (e - s).toNat

/-- The comprehension `[int(linha) for linha in ls]`, stopping at the first `ValueError`. -/
def lerInts : List String → Except PyError (List Int)
  | [] => Except.ok []
  | s :: rest => do
      let v ← pyInt s
      let vs ← lerInts rest
      Except.ok (v :: vs)

/-- The unpacking `peso, valor, referencia = map(int, toks)`: Python evaluates the lazy
`map` left to right while unpacking, so a bad literal among the first
tokens surfaces before an arity error. -/
def unpack3 (toks : List String) : Except PyError (Int × Int × Int) :=
  match toks with
  | [] => Except.error (PyError.unpackPoucos 0)
  | [t1] => do
      let _ ← pyInt t1
      Except.error (PyError.unpackPoucos 1)
  | [t1, t2] => do
      let _ ← pyInt t1
      let _ ← pyInt t2
      Except.error (PyError.unpackPoucos 2)
  | [t1, t2, t3] => do
      let a ← pyInt t1
      let b ← pyInt t2
      let c ← pyInt t3
      Except.ok (a, b, c)
  | t1 :: t2 :: t3 :: t4 :: _ => do
      let _ ← pyInt t1
      let _ ← pyInt t2
      let _ ← pyInt t3
      let _ ← pyInt t4
      Except.error PyError.unpackMuitos

/-- The reader `unpack3` applied to each of a list of item lines. -/
def lerTriples : List String → Except PyError (List (Int × Int × Int))
  | [] => Except.ok []
  | s :: rest => do
      let t ← unpack3 (splitWs s)
      let ts ← lerTriples rest
      Except.ok (t :: ts)

/-- The capacity-reading loop of `carregar_instancia_mkp`:
`for i in range(1, num_salas + 1): capacidades.append(int(linhas[i]))`,
here parametrised by the first index and the iteration count. -/
def lerCapacidades (linhas : List String) (i : Int) : Nat → Except PyError (List Int)
  | 0 => Except.ok []
  | k + 1 => do
      let s ← pyIndex linhas i
      let c ← pyInt s
      let resto ← lerCapacidades linhas (i + 1) k
      Except.ok (c :: resto)

/-- The item-reading loop shared by both loaders:
`for i in range(num_salas + 2, num_salas + 2 + num_alunos):
   peso, valor, referencia = map(int, linhas[i].split())`. -/
def lerAlunos (linhas : List String) (i : Int) : Nat → Except PyError (List (Int × Int × Int))
  | 0 => Except.ok []
  | k + 1 => do
      let s ← pyIndex linhas i
      let t ← unpack3 (splitWs s)
      let resto ← lerAlunos linhas (i + 1) k
      Except.ok (t :: resto)

/-- The 6-tuple both loaders return:
`(num_alunos, num_salas, capacidades, referencias, pesos, valores)`. -/
abbrev CarregadoT : Type :=
  Int × Int × List Int × List Int × List Int × List Int

instance instDecEqCarregado : DecidableEq CarregadoT :=
  instDecidableEqProd

/-- Body of `carregar_instancia_mkp` after line preprocessing: the
capacities are read by indexed loop; `range(a, b)` is empty when `b ≤ a`,
so a negative `num_salas` or `num_alunos` yields an empty loop. -/
def parseInstanciaMkp (linhas : List String) : Except PyError CarregadoT := do
  let s0 ← pyIndex linhas 0
  let numSalas ← pyInt s0
  let capacidades ← lerCapacidades linhas 1 numSalas.toNat
  let sN ← pyIndex linhas (numSalas + 1)
  let numAlunos ← pyInt sN
  let alunos ← lerAlunos linhas (numSalas + 2) numAlunos.toNat
  Except.ok (numAlunos, numSalas, capacidades,
    alunos.map (fun u => u.2.2), alunos.map (fun u => u.1),
    alunos.map (fun u => u.2.1))

/-- Body of `carregar_instancia` (demanda reprimida variant): identical,
except the capacities come from the silent-truncating slice
`linhas[1 : num_salas + 1]`. -/
def parseInstanciaDemanda (linhas : List String) : Except PyError CarregadoT := do
  let s0 ← pyIndex linhas 0
  let numSalas ← pyInt s0
  let capacidades ← lerInts (pySlice linhas 1 (numSalas + 1))
  let sN ← pyIndex linhas (numSalas + 1)
  let numAlunos ← pyInt sN
  let alunos ← lerAlunos linhas (numSalas + 2) numAlunos.toNat
  Except.ok (numAlunos, numSalas, capacidades,
    alunos.map (fun u => u.2.2), alunos.map (fun u => u.1),
    alunos.map (fun u => u.2.1))

/-- The loader `carregar_instancia_mkp` from `multiple_knapsacks_problem.py`,
as a function of the raw file lines. -/
def carregarInstanciaMkp (raw : List String) : Except PyError CarregadoT :=
  parseInstanciaMkp (cleanLines raw)

/-- The loader `carregar_instancia` from `problema_demanda_reprimida.py`,
as a function of the raw file lines. -/
def carregarInstancia (raw : List String) : Except PyError CarregadoT :=
  parseInstanciaDemanda (cleanLines raw)

/-! ## Reference-mapped compatibility policy (`multiple_knapsacks_problem.main`) -/

/-- Python `sorted(list(set(referencias)))`: the distinct item references in
ascending order. -/
def referenciasUnicas (refs : List Int) : List Int :=
  List.insertionSort (fun a b => a ≤ b) refs.dedup

/-- The bin-reference mapping: `referencia_sala = [None] * num_bins` and
then `referencia_sala[i] = referencias_unicas[i]` for
`i < min(len(referencias_unicas), num_bins)`. -/
def referenciaSala (refs : List Int) (numBins : Nat) : List (Option Int) :=
  (List.range numBins).map (fun b =>
    if b < min (referenciasUnicas refs).length numBins then
      some ((referenciasUnicas refs).getD b 0)
    else none)

/-- The warning branch: the code prints an AVISO (and continues) exactly
when `len(referencias_unicas) != num_bins`. -/
def avisoReferencias (refs : List Int) (numBins : Nat) : Bool :=
  (referenciasUnicas refs).length != numBins

/-! ## The MIP model both scripts hand to the solver

A candidate solution is `x : Nat → Nat → Bool` giving the value of the
boolean variable `x[i, b]`; a solution is feasible iff it satisfies every
constraint the script adds via `solver.Add`. -/

/-- A boolean solver variable's value as the integer 0 or 1. -/
def bint (b : Bool) : Int :=
  if b then 1 else 0

/-- Compatibility constraints of the reference-mapped pipeline: for every
item and bin, if `referencia_sala[b]` is `None`, or differs from the
item's reference, the code adds `x[i, b] == 0`. -/
def CompatMapeada (refs : List Int) (nA nS : Nat) (x : Nat → Nat → Bool) : Prop :=
  ∀ i, i < nA → ∀ b, b < nS →
    ((referenciaSala refs nS).getD b none = none ∨
      (referenciaSala refs nS).getD b none ≠ some (refs.getD i 0)) →
    x i b = false

/-- Compatibility constraints of the direct-addressing pipeline: the code
adds `x[i, b] == 0` whenever `b != referencias[i] - 1`. -/
def CompatDireta (refs : List Int) (nA nS : Nat) (x : Nat → Nat → Bool) : Prop :=
  ∀ i, i < nA → ∀ b, b < nS → (b : Int) ≠ refs.getD i 0 - 1 → x i b = false

/-- Single-assignment constraints: for every item,
`sum(x[i, b] for b in all_bins) <= 1`. -/
def AlocacaoUnica (nA nS : Nat) (x : Nat → Nat → Bool) : Prop :=
  ∀ i, i < nA → (∑ b in Finset.range nS, bint (x i b)) ≤ 1

/-- The weight carried by bin `b`:
`sum(x[i, b] * weights[i] for i in all_items)`. -/
def pesoSala (pesos : List Int) (nA : Nat) (x : Nat → Nat → Bool) (b : Nat) : Int :=
  ∑ i in Finset.range nA, bint (x i b) * pesos.getD i 0

/-- Capacity constraints: for every bin,
`sum(x[i, b] * weights[i] for i in all_items) <= bin_capacities[b]`. -/
def RespeitaCapacidade (caps pesos : List Int) (nA nS : Nat)
    (x : Nat → Nat → Bool) : Prop :=
  ∀ b, b < nS → pesoSala pesos nA x b ≤ caps.getD b 0

/-- Feasibility for the model built by `multiple_knapsacks_problem.main`
(reference-mapped policy). -/
def SolucaoViavelMapeada (caps pesos refs : List Int) (nA nS : Nat)
    (x : Nat → Nat → Bool) : Prop :=
  CompatMapeada refs nA nS x ∧ AlocacaoUnica nA nS x ∧
    RespeitaCapacidade caps pesos nA nS x

/-- Feasibility for the model built by `solve_demanda_reprimida`
(direct-addressing policy). -/
def SolucaoViavelDireta (caps pesos refs : List Int) (nA nS : Nat)
    (x : Nat → Nat → Bool) : Prop :=
  CompatDireta refs nA nS x ∧ AlocacaoUnica nA nS x ∧
    RespeitaCapacidade caps pesos nA nS x

/-- The objective both scripts maximise: the coefficient `values[i]` is
set on `x[i, b]` for every pair, including compatibility-forced ones. -/
def valorObjetivo (valores : List Int) (nA nS : Nat)
    (x : Nat → Nat → Bool) : Int :=
  ∑ i in Finset.range nA, ∑ b in Finset.range nS, bint (x i b) * valores.getD i 0

/-- Whether item `i` is mapped to some bin in the solution. -/
def alocado (x : Nat → Nat → Bool) (nS : Nat) (i : Nat) : Bool :=
  (List.range nS).any (fun b => x i b)

/-! ## Report aggregates -/

/-- The global total both reports accumulate: over each bin, the sum of
`weights[i]` over the items with `x[i, b]` set (the mapped pipeline names
it `total_weight`, the direct one `total_alunos_alocados`). -/
def totalPesoAlocado (pesos : List Int) (nA nS : Nat)
    (x : Nat → Nat → Bool) : Int :=
  ∑ b in Finset.range nS, ∑ i in Finset.range nA,
    if x i b then pesos.getD i 0 else 0

/-- The global section printed by the reference-mapped pipeline when the
solver is optimal: total assigned weight followed by the objective value
(no unassigned count is printed). -/
def secaoGlobalMapeada (pesos valores : List Int) (nA nS : Nat)
    (x : Nat → Nat → Bool) : Int × Int :=
  (totalPesoAlocado pesos nA nS x, valorObjetivo valores nA nS x)

/-- The `Total de alunos não alocados` line of the direct-addressing
report: `num_alunos - total_alunos_alocados`, where the accumulated
`total_alunos_alocados` is really the total assigned weight. -/
def resumoNaoAlocados (pesos : List Int) (nA nS : Nat)
    (x : Nat → Nat → Bool) : Int :=
  (nA : Int) - totalPesoAlocado pesos nA nS x

/-- The number of items not mapped to any bin in the solution. -/
def numNaoAlocados (nA nS : Nat) (x : Nat → Nat → Bool) : Nat :=
  ((Finset.range nA).filter (fun i => ¬ alocado x nS i = true)).card

/-! ## Blank-line edits and file well-formedness -/

/-- The relation `BlankEdit f g` holds when `g` is obtained from `f` by inserting or
deleting any number of whitespace-only lines at any positions. -/
inductive BlankEdit : List String → List String → Prop
  | nil : BlankEdit [] []
  | keep (l : String) {xs ys : List String} :
      BlankEdit xs ys → BlankEdit (l :: xs) (l :: ys)
  | ins (l : String) {xs ys : List String} :
      pyStrip l = "" → BlankEdit xs ys → BlankEdit xs (l :: ys)
  | del (l : String) {xs ys : List String} :
      pyStrip l = "" → BlankEdit xs ys → BlankEdit (l :: xs) ys

/-- A raw file is well formed for the canonical format, with capacities
`caps` and item triples `itens`, when its cleaned lines decompose into a
bin-count line, that many numeric capacity lines, an item-count line and
that many three-integer item lines. -/
def arquivoBemFormado (raw : List String) (caps : List Int)
    (itens : List (Int × Int × Int)) : Prop :=
  ∃ s0 capLs sN itemLs,
    cleanLines raw = s0 :: (capLs ++ sN :: itemLs) ∧
    pyInt s0 = Except.ok (capLs.length : Int) ∧
    lerInts capLs = Except.ok caps ∧
    pyInt sN = Except.ok (itemLs.length : Int) ∧
    lerTriples itemLs = Except.ok itens

/-- The malformation families of the claim, for the cleaned line list:
an empty file; a non-numeric bin count; a file shorter than the header
requires; a non-numeric capacity line; a non-numeric item count; missing
item lines; an item line with a bad token or without exactly three
tokens. -/
def MalFormado (raw : List String) : Prop :=
  let L := cleanLines raw
  (L = []) ∨
  (∃ s0 e, L.get? 0 = some s0 ∧ pyInt s0 = Except.error e) ∨
  (∃ s0 n, L.get? 0 = some s0 ∧ pyInt s0 = Except.ok n ∧ 0 ≤ n ∧
    L.length < n.toNat + 2) ∨
  (∃ s0 n j sj e, L.get? 0 = some s0 ∧ pyInt s0 = Except.ok n ∧ 0 ≤ n ∧
    j < n.toNat ∧ L.get? (1 + j) = some sj ∧ pyInt sj = Except.error e) ∨
  (∃ s0 n sN e, L.get? 0 = some s0 ∧ pyInt s0 = Except.ok n ∧ 0 ≤ n ∧
    L.get? (n.toNat + 1) = some sN ∧ pyInt sN = Except.error e) ∨
  (∃ s0 n sN na, L.get? 0 = some s0 ∧ pyInt s0 = Except.ok n ∧ 0 ≤ n ∧
    L.get? (n.toNat + 1) = some sN ∧ pyInt sN = Except.ok na ∧ 0 ≤ na ∧
    L.length < n.toNat + 2 + na.toNat) ∨
  (∃ s0 n sN na j sj, L.get? 0 = some s0 ∧ pyInt s0 = Except.ok n ∧ 0 ≤ n ∧
    L.get? (n.toNat + 1) = some sN ∧ pyInt sN = Except.ok na ∧ 0 ≤ na ∧
    j < na.toNat ∧ L.get? (n.toNat + 2 + j) = some sj ∧
    ((splitWs sj).length ≠ 3 ∨
      ∃ tok e, tok ∈ splitWs sj ∧ pyInt tok = Except.error e))

/-- The optimal assignment of Scenario A: items 0 and 1 in bin 0,
item 2 in bin 1. -/
def xA : Nat → Nat → Bool := fun i b =>
  (i == 0 && b == 0) || (i == 1 && b == 0) || (i == 2 && b == 1)

/-- A one-item solution placing item 0 in bin 0. -/
def xC7 : Nat → Nat → Bool := fun i b =>
  i == 0 && b == 0

/-! ## Lemmas about line preprocessing -/

lemma cleanLines_nil : cleanLines [] = [] := rfl

lemma cleanLines_cons (l : String) (xs : List String) :
    cleanLines (l :: xs) =
      if pyStrip l = "" then cleanLines xs else pyStrip l :: cleanLines xs := by
  by_cases h : pyStrip l = "" <;> simp [cleanLines, List.filter_cons, h]

lemma blankEdit_cleanLines {xs ys : List String} (h : BlankEdit xs ys) :
    cleanLines xs = cleanLines ys := by
  induction h with
  | nil => rfl
  | keep l _ ih => rw [cleanLines_cons, cleanLines_cons, ih]
  | ins l hl _ ih => rw [cleanLines_cons, hl, if_pos rfl, ih]
  | del l hl _ ih => rw [cleanLines_cons, hl, if_pos rfl, ih]

/-! ## Lemmas about Python indexing -/

lemma pyIndex_natCast (l : List String) (k : Nat) :
    pyIndex l (k : Int) =
      match l.get? k with
      | some s => Except.ok s
      | none => Except.error PyError.indexError := by
  unfold pyIndex
  have h1 : ¬ ((k : Int) < 0) := by omega
  have h2 : (0 : Int) ≤ (k : Int) := by omega
  simp [h1, h2]

lemma pyIndex_zero (s : String) (l : List String) :
    pyIndex (s :: l) 0 = Except.ok s := rfl

lemma pyIndex_ok_get {l : List String} {k : Nat} {s : String}
    (h : l.get? k = some s) : pyIndex l (k : Int) = Except.ok s := by
  rw [pyIndex_natCast, h]

lemma pyIndex_ok_inv {l : List String} {k : Nat} {s : String}
    (h : pyIndex l (k : Int) = Except.ok s) : l.get? k = some s := by
  rw [pyIndex_natCast] at h
  cases hg : l.get? k with
  | none => rw [hg] at h; exact absurd h (by simp)
  | some t => rw [hg] at h; injection h with h2; rw [h2]

lemma get?_some_lt {l : List String} {k : Nat} {s : String}
    (h : l.get? k = some s) : k < l.length := by
  by_contra hk
  rw [List.get?_eq_none.mpr (by omega)] at h
  exact absurd h (by simp)

/-! ## Unfolding equations for the monadic readers -/

lemma lerInts_cons (s : String) (ms : List String) :
    lerInts (s :: ms) =
      Except.bind (pyInt s) (fun v =>
        Except.bind (lerInts ms) (fun vs => Except.ok (v :: vs))) := rfl

lemma lerTriples_cons (s : String) (ms : List String) :
    lerTriples (s :: ms) =
      Except.bind (unpack3 (splitWs s)) (fun t =>
        Except.bind (lerTriples ms) (fun ts => Except.ok (t :: ts))) := rfl

lemma lerCapacidades_succ (l : List String) (i : Int) (k : Nat) :
    lerCapacidades l i (k + 1) =
      Except.bind (pyIndex l i) (fun s =>
        Except.bind (pyInt s) (fun c =>
          Except.bind (lerCapacidades l (i + 1) k) (fun resto =>
            Except.ok (c :: resto)))) := rfl

lemma lerAlunos_succ (l : List String) (i : Int) (k : Nat) :
    lerAlunos l i (k + 1) =
      Except.bind (pyIndex l i) (fun s =>
        Except.bind (unpack3 (splitWs s)) (fun t =>
          Except.bind (lerAlunos l (i + 1) k) (fun resto =>
            Except.ok (t :: resto)))) := rfl

/-! ## Lemmas about the reading loops (success direction) -/

lemma lerInts_cons_inv {s : String} {ms : List String} {caps : List Int}
    (h : lerInts (s :: ms) = Except.ok caps) :
    ∃ v vs, pyInt s = Except.ok v ∧ lerInts ms = Except.ok vs ∧ caps = v :: vs := by
  rw [lerInts_cons] at h
  cases hv : pyInt s with
  | error e => rw [hv] at h; simp only [Except.bind] at h; exact absurd h (by simp)
  | ok v =>
      rw [hv] at h
      simp only [Except.bind] at h
      cases hvs : lerInts ms with
      | error e => rw [hvs] at h; simp only [Except.bind] at h; exact absurd h (by simp)
      | ok vs =>
          rw [hvs] at h
          simp only [Except.bind] at h
          injection h with h2
          exact ⟨v, vs, rfl, rfl, h2.symm⟩

lemma lerInts_length {ls : List String} {vs : List Int}
    (h : lerInts ls = Except.ok vs) : vs.length = ls.length := by
  induction ls generalizing vs with
  | nil =>
      simp only [lerInts] at h
      injection h with h2
      simp [← h2]
  | cons s ms ih =>
      obtain ⟨v, ws, _, hws, hcons⟩ := lerInts_cons_inv h
      rw [hcons]
      simp [ih hws]

lemma lerTriples_cons_inv {s : String} {ms : List String}
    {itens : List (Int × Int × Int)}
    (h : lerTriples (s :: ms) = Except.ok itens) :
    ∃ t ts, unpack3 (splitWs s) = Except.ok t ∧ lerTriples ms = Except.ok ts ∧
      itens = t :: ts := by
  rw [lerTriples_cons] at h
  cases ht : unpack3 (splitWs s) with
  | error e => rw [ht] at h; simp only [Except.bind] at h; exact absurd h (by simp)
  | ok t =>
      rw [ht] at h
      simp only [Except.bind] at h
      cases hts : lerTriples ms with
      | error e => rw [hts] at h; simp only [Except.bind] at h; exact absurd h (by simp)
      | ok ts =>
          rw [hts] at h
          simp only [Except.bind] at h
          injection h with h2
          exact ⟨t, ts, rfl, rfl, h2.symm⟩

lemma lerTriples_length {ls : List String} {ts : List (Int × Int × Int)}
    (h : lerTriples ls = Except.ok ts) : ts.length = ls.length := by
  induction ls generalizing ts with
  | nil =>
      simp only [lerTriples] at h
      injection h with h2
      simp [← h2]
  | cons s ms ih =>
      obtain ⟨t, ts2, _, hts, hcons⟩ := lerTriples_cons_inv h
      rw [hcons]
      simp [ih hts]

lemma pyIndex_meio (pre : List String) (s : String) (post : List String) :
    pyIndex (pre ++ s :: post) (pre.length : Int) = Except.ok s := by
  apply pyIndex_ok_get
  rw [List.get?_append_right (Nat.le_refl _)]
  simp

lemma lerCapacidades_append (post : List String) :
    ∀ (mid pre : List String) (caps : List Int), lerInts mid = Except.ok caps →
      lerCapacidades (pre ++ (mid ++ post)) (pre.length : Int) mid.length =
        Except.ok caps := by
  intro mid
  induction mid with
  | nil =>
      intro pre caps h
      simp only [lerInts] at h
      injection h with h2
      rw [← h2]
      rfl
  | cons s ms ih =>
      intro pre caps h
      obtain ⟨v, vs, hv, hvs, hcons⟩ := lerInts_cons_inv h
      have hidx : pyIndex (pre ++ (s :: (ms ++ post))) (pre.length : Int) =
          Except.ok s := pyIndex_meio pre s (ms ++ post)
      have hrec : lerCapacidades (pre ++ (s :: (ms ++ post)))
          ((pre.length : Int) + 1) ms.length = Except.ok vs := by
        have h2 := ih (pre ++ [s]) vs hvs
        have hlist : (pre ++ [s]) ++ (ms ++ post) = pre ++ (s :: (ms ++ post)) := by
          simp
        have hlen : (((pre ++ [s]).length : Nat) : Int) = (pre.length : Int) + 1 := by
          simp
        rw [hlist, hlen] at h2
        exact h2
      show lerCapacidades (pre ++ (s :: (ms ++ post))) (pre.length : Int)
          (ms.length + 1) = Except.ok caps
      rw [hcons, lerCapacidades_succ, hidx]
      simp only [Except.bind]
      rw [hv]
      simp only [Except.bind]
      rw [hrec]

lemma lerAlunos_append (post : List String) :
    ∀ (mid pre : List String) (itens : List (Int × Int × Int)),
      lerTriples mid = Except.ok itens →
      lerAlunos (pre ++ (mid ++ post)) (pre.length : Int) mid.length =
        Except.ok itens := by
  intro mid
  induction mid with
  | nil =>
      intro pre itens h
      simp only [lerTriples] at h
      injection h with h2
      rw [← h2]
      rfl
  | cons s ms ih =>
      intro pre itens h
      obtain ⟨t, ts, ht, hts, hcons⟩ := lerTriples_cons_inv h
      have hidx : pyIndex (pre ++ (s :: (ms ++ post))) (pre.length : Int) =
          Except.ok s := pyIndex_meio pre s (ms ++ post)
      have hrec : lerAlunos (pre ++ (s :: (ms ++ post)))
          ((pre.length : Int) + 1) ms.length = Except.ok ts := by
        have h2 := ih (pre ++ [s]) ts hts
        have hlist : (pre ++ [s]) ++ (ms ++ post) = pre ++ (s :: (ms ++ post)) := by
          simp
        have hlen : (((pre ++ [s]).length : Nat) : Int) = (pre.length : Int) + 1 := by
          simp
        rw [hlist, hlen] at h2
        exact h2
      show lerAlunos (pre ++ (s :: (ms ++ post))) (pre.length : Int)
          (ms.length + 1) = Except.ok itens
      rw [hcons, lerAlunos_succ, hidx]
      simp only [Except.bind]
      rw [ht]
      simp only [Except.bind]
      rw [hrec]

lemma pySlice_extrai (s0 : String) (mid : List String) (r : String)
    (rs : List String) :
    pySlice (s0 :: (mid ++ r :: rs)) 1 ((mid.length : Int) + 1) = mid := by
  have hn : ((s0 :: (mid ++ r :: rs)).length : Int) =
      (mid.length : Int) + (rs.length : Int) + 2 := by
    simp [List.length_append]
    ring
  simp only [pySlice]
  rw [hn]
  have h1 : ¬ ((1 : Int) < 0) := by omega
  have h2 : ¬ ((mid.length : Int) + 1 < 0) := by omega
  rw [if_neg h1, if_neg h2]
  have h3 : min (1 : Int) ((mid.length : Int) + (rs.length : Int) + 2) = 1 := by
    omega
  have h4 : min ((mid.length : Int) + 1)
      ((mid.length : Int) + (rs.length : Int) + 2) = (mid.length : Int) + 1 := by
    omega
  rw [h3, h4]
  have h5 : ((1 : Int)).toNat = 1 := rfl
  have h6 : ((mid.length : Int) + 1 - 1).toNat = mid.length := by omega
  rw [h5, h6]
  show (mid ++ r :: rs).take mid.length = mid
  exact List.take_left mid (r :: rs)

/-! ## Success of the loaders on well-formed files -/

lemma parseMkp_sucesso (s0 : String) (capLs : List String) (sN : String)
    (itemLs : List String) (caps : List Int) (itens : List (Int × Int × Int))
    (h0 : pyInt s0 = Except.ok (capLs.length : Int))
    (hc : lerInts capLs = Except.ok caps)
    (hN : pyInt sN = Except.ok (itemLs.length : Int))
    (hi : lerTriples itemLs = Except.ok itens) :
    parseInstanciaMkp (s0 :: (capLs ++ sN :: itemLs)) =
      Except.ok ((itemLs.length : Int), (capLs.length : Int), caps,
        itens.map (fun u => u.2.2), itens.map (fun u => u.1),
        itens.map (fun u => u.2.1)) := by
  have hidx0 : pyIndex (s0 :: (capLs ++ sN :: itemLs)) 0 = Except.ok s0 :=
    pyIndex_zero _ _
  have htn : ((capLs.length : Int)).toNat = capLs.length := Int.toNat_natCast _
  have hcaps : lerCapacidades (s0 :: (capLs ++ sN :: itemLs)) 1
      capLs.length = Except.ok caps := by
    have h2 := lerCapacidades_append (sN :: itemLs) capLs [s0] caps hc
    simpa using h2
  have hidxN : pyIndex (s0 :: (capLs ++ sN :: itemLs))
      ((capLs.length : Int) + 1) = Except.ok sN := by
    have h2 := pyIndex_meio (s0 :: capLs) sN itemLs
    have hlen : (((s0 :: capLs).length : Nat) : Int) = (capLs.length : Int) + 1 := by
      simp
    rw [hlen] at h2
    simpa using h2
  have htna : ((itemLs.length : Int)).toNat = itemLs.length := Int.toNat_natCast _
  have halunos : lerAlunos (s0 :: (capLs ++ sN :: itemLs))
      ((capLs.length : Int) + 2) itemLs.length = Except.ok itens := by
    have h2 := lerAlunos_append [] itemLs (s0 :: (capLs ++ [sN])) itens hi
    have hlist : (s0 :: (capLs ++ [sN])) ++ (itemLs ++ []) =
        s0 :: (capLs ++ sN :: itemLs) := by
      simp
    have hlen : (((s0 :: (capLs ++ [sN])).length : Nat) : Int) =
        (capLs.length : Int) + 2 := by
      simp
      ring
    rw [hlist, hlen] at h2
    exact h2
  show Except.bind (pyIndex (s0 :: (capLs ++ sN :: itemLs)) 0) (fun a =>
      Except.bind (pyInt a) (fun numSalas =>
        Except.bind (lerCapacidades (s0 :: (capLs ++ sN :: itemLs)) 1
            numSalas.toNat) (fun capacidades =>
          Except.bind (pyIndex (s0 :: (capLs ++ sN :: itemLs)) (numSalas + 1))
            (fun b =>
            Except.bind (pyInt b) (fun numAlunos =>
              Except.bind (lerAlunos (s0 :: (capLs ++ sN :: itemLs))
                  (numSalas + 2) numAlunos.toNat) (fun alunos =>
                Except.ok (numAlunos, numSalas, capacidades,
                  alunos.map (fun u => u.2.2), alunos.map (fun u => u.1),
                  alunos.map (fun u => u.2.1)))))))) = _
  rw [hidx0]
  simp only [Except.bind]
  rw [h0]
  simp only [Except.bind]
  rw [htn, hcaps]
  simp only [Except.bind]
  rw [hidxN]
  simp only [Except.bind]
  rw [hN]
  simp only [Except.bind]
  rw [htna, halunos]

lemma parseDemanda_sucesso (s0 : String) (capLs : List String) (sN : String)
    (itemLs : List String) (caps : List Int) (itens : List (Int × Int × Int))
    (h0 : pyInt s0 = Except.ok (capLs.length : Int))
    (hc : lerInts capLs = Except.ok caps)
    (hN : pyInt sN = Except.ok (itemLs.length : Int))
    (hi : lerTriples itemLs = Except.ok itens) :
    parseInstanciaDemanda (s0 :: (capLs ++ sN :: itemLs)) =
      Except.ok ((itemLs.length : Int), (capLs.length : Int), caps,
        itens.map (fun u => u.2.2), itens.map (fun u => u.1),
        itens.map (fun u => u.2.1)) := by
  have hidx0 : pyIndex (s0 :: (capLs ++ sN :: itemLs)) 0 = Except.ok s0 :=
    pyIndex_zero _ _
  have hslice : pySlice (s0 :: (capLs ++ sN :: itemLs)) 1
      ((capLs.length : Int) + 1) = capLs := pySlice_extrai s0 capLs sN itemLs
  have hidxN : pyIndex (s0 :: (capLs ++ sN :: itemLs))
      ((capLs.length : Int) + 1) = Except.ok sN := by
    have h2 := pyIndex_meio (s0 :: capLs) sN itemLs
    have hlen : (((s0 :: capLs).length : Nat) : Int) = (capLs.length : Int) + 1 := by
      simp
    rw [hlen] at h2
    simpa using h2
  have htna : ((itemLs.length : Int)).toNat = itemLs.length := Int.toNat_natCast _
  have halunos : lerAlunos (s0 :: (capLs ++ sN :: itemLs))
      ((capLs.length : Int) + 2) itemLs.length = Except.ok itens := by
    have h2 := lerAlunos_append [] itemLs (s0 :: (capLs ++ [sN])) itens hi
    have hlist : (s0 :: (capLs ++ [sN])) ++ (itemLs ++ []) =
        s0 :: (capLs ++ sN :: itemLs) := by
      simp
    have hlen : (((s0 :: (capLs ++ [sN])).length : Nat) : Int) =
        (capLs.length : Int) + 2 := by
      simp
      ring
    rw [hlist, hlen] at h2
    exact h2
  show Except.bind (pyIndex (s0 :: (capLs ++ sN :: itemLs)) 0) (fun a =>
      Except.bind (pyInt a) (fun numSalas =>
        Except.bind (lerInts (pySlice (s0 :: (capLs ++ sN :: itemLs)) 1
            (numSalas + 1))) (fun capacidades =>
          Except.bind (pyIndex (s0 :: (capLs ++ sN :: itemLs)) (numSalas + 1))
            (fun b =>
            Except.bind (pyInt b) (fun numAlunos =>
              Except.bind (lerAlunos (s0 :: (capLs ++ sN :: itemLs))
                  (numSalas + 2) numAlunos.toNat) (fun alunos =>
                Except.ok (numAlunos, numSalas, capacidades,
                  alunos.map (fun u => u.2.2), alunos.map (fun u => u.1),
                  alunos.map (fun u => u.2.1)))))))) = _
  rw [hidx0]
  simp only [Except.bind]
  rw [h0]
  simp only [Except.bind]
  rw [hslice, hc]
  simp only [Except.bind]
  rw [hidxN]
  simp only [Except.bind]
  rw [hN]
  simp only [Except.bind]
  rw [htna, halunos]

/-- Both loaders, on a well-formed raw file, return
`(num_alunos, num_salas, capacidades, referencias, pesos, valores)` with the
parsed values unchanged. -/
lemma carregar_bemFormado {raw : List String} {caps : List Int}
    {itens : List (Int × Int × Int)} (h : arquivoBemFormado raw caps itens) :
    carregarInstanciaMkp raw =
      Except.ok ((itens.length : Int), (caps.length : Int), caps,
        itens.map (fun u => u.2.2), itens.map (fun u => u.1),
        itens.map (fun u => u.2.1)) ∧
    carregarInstancia raw =
      Except.ok ((itens.length : Int), (caps.length : Int), caps,
        itens.map (fun u => u.2.2), itens.map (fun u => u.1),
        itens.map (fun u => u.2.1)) := by
  obtain ⟨s0, capLs, sN, itemLs, hdec, h0, hc, hN, hi⟩ := h
  have hlc : caps.length = capLs.length := lerInts_length hc
  have hli : itens.length = itemLs.length := lerTriples_length hi
  constructor
  · show parseInstanciaMkp (cleanLines raw) = _
    rw [hdec, hlc, hli]
    exact parseMkp_sucesso s0 capLs sN itemLs caps itens h0 hc hN hi
  · show parseInstanciaDemanda (cleanLines raw) = _
    rw [hdec, hlc, hli]
    exact parseDemanda_sucesso s0 capLs sN itemLs caps itens h0 hc hN hi

/-! ## Inversion: what a successful load implies about the file -/

lemma pyIndex_nonneg_inv {l : List String} {i : Int} {s : String}
    (hi : 0 ≤ i) (h : pyIndex l i = Except.ok s) :
    l.get? i.toNat = some s := by
  have hcast : ((i.toNat : Nat) : Int) = i := Int.toNat_of_nonneg hi
  rw [← hcast] at h
  exact pyIndex_ok_inv h

lemma lerCapacidades_ok_inv :
    ∀ (k : Nat) (l : List String) (i : Int) (caps : List Int),
      lerCapacidades l i k = Except.ok caps →
      ∀ j, j < k →
        ∃ s c, pyIndex l (i + (j : Int)) = Except.ok s ∧
          pyInt s = Except.ok c := by
  intro k
  induction k with
  | zero =>
      intro l i caps _ j hj
      exact absurd hj (by omega)
  | succ m ih =>
      intro l i caps h j hj
      rw [lerCapacidades_succ] at h
      cases hs : pyIndex l i with
      | error e => rw [hs] at h; simp only [Except.bind] at h; exact absurd h (by simp)
      | ok s =>
          rw [hs] at h
          simp only [Except.bind] at h
          cases hcv : pyInt s with
          | error e => rw [hcv] at h; simp only [Except.bind] at h; exact absurd h (by simp)
          | ok c =>
              rw [hcv] at h
              simp only [Except.bind] at h
              cases hrest : lerCapacidades l (i + 1) m with
              | error e => rw [hrest] at h; simp only [Except.bind] at h; exact absurd h (by simp)
              | ok resto =>
                  cases j with
                  | zero => exact ⟨s, c, by simpa using hs, hcv⟩
                  | succ jj =>
                      obtain ⟨s2, c2, hidx2, hint2⟩ :=
                        ih l (i + 1) resto hrest jj (by omega)
                      refine ⟨s2, c2, ?_, hint2⟩
                      have harith : (i + 1) + (jj : Int) =
                          i + ((jj + 1 : Nat) : Int) := by push_cast; ring
                      rw [← harith]
                      exact hidx2

lemma lerAlunos_ok_inv :
    ∀ (k : Nat) (l : List String) (i : Int) (itens : List (Int × Int × Int)),
      lerAlunos l i k = Except.ok itens →
      ∀ j, j < k →
        ∃ s t, pyIndex l (i + (j : Int)) = Except.ok s ∧
          unpack3 (splitWs s) = Except.ok t := by
  intro k
  induction k with
  | zero =>
      intro l i itens _ j hj
      exact absurd hj (by omega)
  | succ m ih =>
      intro l i itens h j hj
      rw [lerAlunos_succ] at h
      cases hs : pyIndex l i with
      | error e => rw [hs] at h; simp only [Except.bind] at h; exact absurd h (by simp)
      | ok s =>
          rw [hs] at h
          simp only [Except.bind] at h
          cases ht : unpack3 (splitWs s) with
          | error e => rw [ht] at h; simp only [Except.bind] at h; exact absurd h (by simp)
          | ok t =>
              rw [ht] at h
              simp only [Except.bind] at h
              cases hrest : lerAlunos l (i + 1) m with
              | error e => rw [hrest] at h; simp only [Except.bind] at h; exact absurd h (by simp)
              | ok resto =>
                  cases j with
                  | zero => exact ⟨s, t, by simpa using hs, ht⟩
                  | succ jj =>
                      obtain ⟨s2, t2, hidx2, ht2⟩ :=
                        ih l (i + 1) resto hrest jj (by omega)
                      refine ⟨s2, t2, ?_, ht2⟩
                      have harith : (i + 1) + (jj : Int) =
                          i + ((jj + 1 : Nat) : Int) := by push_cast; ring
                      rw [← harith]
                      exact hidx2

lemma unpack3_ok_inv {toks : List String} {t : Int × Int × Int}
    (h : unpack3 toks = Except.ok t) :
    ∃ t1 t2 t3, toks = [t1, t2, t3] ∧ pyInt t1 = Except.ok t.1 ∧
      pyInt t2 = Except.ok t.2.1 ∧ pyInt t3 = Except.ok t.2.2 := by
  rcases toks with _ | ⟨t1, _ | ⟨t2, _ | ⟨t3, _ | ⟨t4, rest⟩⟩⟩⟩
  · exact absurd h (by simp [unpack3])
  · cases h1 : pyInt t1 <;> rw [show unpack3 [t1] =
        Except.bind (pyInt t1) (fun _ => Except.error (PyError.unpackPoucos 1))
        from rfl, h1] at h <;> simp only [Except.bind] at h <;>
      exact absurd h (by simp)
  · rw [show unpack3 [t1, t2] = Except.bind (pyInt t1) (fun _ =>
        Except.bind (pyInt t2) (fun _ =>
          Except.error (PyError.unpackPoucos 2))) from rfl] at h
    cases h1 : pyInt t1 <;> rw [h1] at h <;> simp only [Except.bind] at h
    · exact absurd h (by simp)
    · cases h2 : pyInt t2 <;> rw [h2] at h <;> simp only [Except.bind] at h <;>
        exact absurd h (by simp)
  · rw [show unpack3 [t1, t2, t3] = Except.bind (pyInt t1) (fun a =>
        Except.bind (pyInt t2) (fun b =>
          Except.bind (pyInt t3) (fun c => Except.ok (a, b, c)))) from rfl] at h
    cases h1 : pyInt t1 <;> rw [h1] at h <;> simp only [Except.bind] at h
    · exact absurd h (by simp)
    · cases h2 : pyInt t2 <;> rw [h2] at h <;> simp only [Except.bind] at h
      · exact absurd h (by simp)
      · cases h3 : pyInt t3 <;> rw [h3] at h <;> simp only [Except.bind] at h
        · exact absurd h (by simp)
        · injection h with h4
          refine ⟨t1, t2, t3, rfl, ?_, ?_, ?_⟩ <;> rw [← h4]
          · exact h1
          · exact h2
          · exact h3
  · rw [show unpack3 (t1 :: t2 :: t3 :: t4 :: rest) =
        Except.bind (pyInt t1) (fun _ =>
        Except.bind (pyInt t2) (fun _ =>
        Except.bind (pyInt t3) (fun _ =>
        Except.bind (pyInt t4) (fun _ =>
          Except.error PyError.unpackMuitos)))) from rfl] at h
    cases h1 : pyInt t1 <;> rw [h1] at h <;> simp only [Except.bind] at h
    · exact absurd h (by simp)
    · cases h2 : pyInt t2 <;> rw [h2] at h <;> simp only [Except.bind] at h
      · exact absurd h (by simp)
      · cases h3 : pyInt t3 <;> rw [h3] at h <;> simp only [Except.bind] at h
        · exact absurd h (by simp)
        · cases h4 : pyInt t4 <;> rw [h4] at h <;> simp only [Except.bind] at h <;>
            exact absurd h (by simp)

lemma parseMkp_ok_inv {L : List String} {t : CarregadoT}
    (h : parseInstanciaMkp L = Except.ok t) :
    ∃ s0 n caps sN na alunos,
      pyIndex L 0 = Except.ok s0 ∧ pyInt s0 = Except.ok n ∧
      lerCapacidades L 1 n.toNat = Except.ok caps ∧
      pyIndex L (n + 1) = Except.ok sN ∧ pyInt sN = Except.ok na ∧
      lerAlunos L (n + 2) na.toNat = Except.ok alunos := by
  have h2 : Except.bind (pyIndex L 0) (fun a =>
      Except.bind (pyInt a) (fun numSalas =>
        Except.bind (lerCapacidades L 1 numSalas.toNat) (fun capacidades =>
          Except.bind (pyIndex L (numSalas + 1)) (fun b =>
            Except.bind (pyInt b) (fun numAlunos =>
              Except.bind (lerAlunos L (numSalas + 2) numAlunos.toNat)
                (fun alunos => Except.ok (numAlunos, numSalas, capacidades,
                  alunos.map (fun u => u.2.2), alunos.map (fun u => u.1),
                  alunos.map (fun u => u.2.1)))))))) = Except.ok t := h
  cases e0 : pyIndex L 0 with
  | error e => rw [e0] at h2; simp only [Except.bind] at h2; exact absurd h2 (by simp)
  | ok s0 =>
  rw [e0] at h2
  simp only [Except.bind] at h2
  cases e1 : pyInt s0 with
  | error e => rw [e1] at h2; simp only [Except.bind] at h2; exact absurd h2 (by simp)
  | ok n =>
  rw [e1] at h2
  simp only [Except.bind] at h2
  cases e2 : lerCapacidades L 1 n.toNat with
  | error e => rw [e2] at h2; simp only [Except.bind] at h2; exact absurd h2 (by simp)
  | ok caps =>
  rw [e2] at h2
  simp only [Except.bind] at h2
  cases e3 : pyIndex L (n + 1) with
  | error e => rw [e3] at h2; simp only [Except.bind] at h2; exact absurd h2 (by simp)
  | ok sN =>
  rw [e3] at h2
  simp only [Except.bind] at h2
  cases e4 : pyInt sN with
  | error e => rw [e4] at h2; simp only [Except.bind] at h2; exact absurd h2 (by simp)
  | ok na =>
  rw [e4] at h2
  simp only [Except.bind] at h2
  cases e5 : lerAlunos L (n + 2) na.toNat with
  | error e => rw [e5] at h2; simp only [Except.bind] at h2; exact absurd h2 (by simp)
  | ok alunos =>
  exact ⟨s0, n, caps, sN, na, alunos, rfl, e1, e2, e3, e4, e5⟩

/-! ## Failure of the loader on the malformation families -/

lemma malFormado_falha {raw : List String} (hm : MalFormado raw) :
    ∃ e, carregarInstanciaMkp raw = Except.error e := by
  cases hv : carregarInstanciaMkp raw with
  | error e => exact ⟨e, rfl⟩
  | ok t =>
      exfalso
      have hv2 : parseInstanciaMkp (cleanLines raw) = Except.ok t := hv
      obtain ⟨s0, n, caps, sN, na, alunos, e0, e1, e2, e3, e4, e5⟩ :=
        parseMkp_ok_inv hv2
      have g0 : (cleanLines raw).get? 0 = some s0 := by
        have := pyIndex_nonneg_inv (by omega) e0
        simpa using this
      simp only [MalFormado] at hm
      rcases hm with hL |
        ⟨s0h, eh, hg, hp⟩ |
        ⟨s0h, nh, hg, hp, hnn, hlen⟩ |
        ⟨s0h, nh, jh, sjh, eh, hg, hp, hnn, hj, hgj, hpj⟩ |
        ⟨s0h, nh, sNh, eh, hg, hp, hnn, hgN, hpN⟩ |
        ⟨s0h, nh, sNh, nah, hg, hp, hnn, hgN, hpN, hna, hlen⟩ |
        ⟨s0h, nh, sNh, nah, jh, sjh, hg, hp, hnn, hgN, hpN, hna, hj, hgj, hbad⟩
      · rw [hL] at g0
        exact absurd g0 (by simp)
      · rw [g0] at hg
        injection hg with hs
        rw [← hs, e1] at hp
        exact Except.noConfusion hp
      · rw [g0] at hg
        injection hg with hs
        rw [← hs, e1] at hp
        injection hp with hn
        have gN := pyIndex_nonneg_inv (show (0 : Int) ≤ n + 1 by omega) e3
        have hlt := get?_some_lt gN
        omega
      · rw [g0] at hg
        injection hg with hs
        rw [← hs, e1] at hp
        injection hp with hn
        obtain ⟨s, c, hidx, hint⟩ :=
          lerCapacidades_ok_inv n.toNat (cleanLines raw) 1 caps e2 jh
            (by omega)
        have gj : (cleanLines raw).get? ((1 : Int) + (jh : Int)).toNat = some s :=
          pyIndex_nonneg_inv (by omega) hidx
        have htn : ((1 : Int) + (jh : Int)).toNat = 1 + jh := by omega
        rw [htn] at gj
        rw [gj] at hgj
        injection hgj with hsj
        rw [← hsj, hint] at hpj
        exact Except.noConfusion hpj
      · rw [g0] at hg
        injection hg with hs
        rw [← hs, e1] at hp
        injection hp with hn
        have gN : (cleanLines raw).get? (n + 1).toNat = some sN :=
          pyIndex_nonneg_inv (by omega) e3
        have htn : (n + 1).toNat = nh.toNat + 1 := by omega
        rw [htn] at gN
        rw [gN] at hgN
        injection hgN with hsN
        rw [← hsN, e4] at hpN
        exact Except.noConfusion hpN
      · rw [g0] at hg
        injection hg with hs
        rw [← hs, e1] at hp
        injection hp with hn
        have gN : (cleanLines raw).get? (n + 1).toNat = some sN :=
          pyIndex_nonneg_inv (by omega) e3
        have htn : (n + 1).toNat = nh.toNat + 1 := by omega
        rw [htn] at gN
        rw [gN] at hgN
        injection hgN with hsN
        rw [← hsN, e4] at hpN
        injection hpN with hna2
        have hlenN := get?_some_lt gN
        rcases Nat.eq_zero_or_pos na.toNat with hz | hpos
        · omega
        · obtain ⟨s, t2, hidx, _⟩ :=
            lerAlunos_ok_inv na.toNat (cleanLines raw) (n + 2) alunos e5
              (na.toNat - 1) (by omega)
          have gj : (cleanLines raw).get?
              ((n + 2) + ((na.toNat - 1 : Nat) : Int)).toNat = some s :=
            pyIndex_nonneg_inv (by omega) hidx
          have hltj := get?_some_lt gj
          have harith : ((n + 2) + ((na.toNat - 1 : Nat) : Int)).toNat =
              n.toNat + 1 + na.toNat := by omega
          rw [harith] at hltj
          omega
      · rw [g0] at hg
        injection hg with hs
        rw [← hs, e1] at hp
        injection hp with hn
        have gN : (cleanLines raw).get? (n + 1).toNat = some sN :=
          pyIndex_nonneg_inv (by omega) e3
        have htn : (n + 1).toNat = nh.toNat + 1 := by omega
        rw [htn] at gN
        rw [gN] at hgN
        injection hgN with hsN
        rw [← hsN, e4] at hpN
        injection hpN with hna2
        obtain ⟨s, t2, hidx, hun⟩ :=
          lerAlunos_ok_inv na.toNat (cleanLines raw) (n + 2) alunos e5 jh
            (by omega)
        have gj : (cleanLines raw).get? ((n + 2) + (jh : Int)).toNat = some s :=
          pyIndex_nonneg_inv (by omega) hidx
        have harith : ((n + 2) + (jh : Int)).toNat = nh.toNat + 2 + jh := by omega
        rw [harith] at gj
        rw [gj] at hgj
        injection hgj with hsj
        rw [← hsj] at hbad
        obtain ⟨t1, u2, u3, hsplit, hp1, hp2, hp3⟩ := unpack3_ok_inv hun
        rcases hbad with hlen3 | ⟨tok, eh, htok, hptok⟩
        · rw [hsplit] at hlen3
          exact hlen3 (by simp)
        · rw [hsplit] at htok
          simp only [List.mem_cons, List.mem_singleton] at htok
          rcases htok with h1 | h2 | h3 | hf
          · rw [h1, hp1] at hptok
            exact Except.noConfusion hptok
          · rw [h2, hp2] at hptok
            exact Except.noConfusion hptok
          · rw [h3, hp3] at hptok
            exact Except.noConfusion hptok
          · exact absurd hf (by simp)

/-! ## Failure of the slice-based loader on the same families -/

lemma lerInts_ok_mem {ls : List String} {vs : List Int}
    (h : lerInts ls = Except.ok vs) :
    ∀ s, s ∈ ls → ∃ v, pyInt s = Except.ok v := by
  induction ls generalizing vs with
  | nil =>
      intro s hs
      exact absurd hs (by simp)
  | cons a ms ih =>
      intro s hs
      obtain ⟨v, ws, hv, hws, _⟩ := lerInts_cons_inv h
      rcases List.mem_cons.mp hs with h1 | h2
      · exact ⟨v, by rw [h1]; exact hv⟩
      · exact ih hws s h2

lemma mem_pySlice {L : List String} {m : Int} {j : Nat} {sj : String}
    (hm : 0 ≤ m) (hj : j < m.toNat) (hget : L.get? (1 + j) = some sj) :
    sj ∈ pySlice L 1 (m + 1) := by
  have hlen : 1 + j < L.length := get?_some_lt hget
  have h1 : ¬ ((1 : Int) < 0) := by omega
  have h2 : ¬ (m + 1 < 0) := by omega
  have hs : min (1 : Int) (L.length : Int) = 1 := by omega
  simp only [pySlice]
  rw [if_neg h1, if_neg h2, hs]
  rw [show ((1 : Int)).toNat = 1 from rfl]
  have htake : j < (min (m + 1) (L.length : Int) - 1).toNat := by omega
  have hget2 : ((L.drop 1).take (min (m + 1) (L.length : Int) - 1).toNat).get? j =
      some sj := by
    rw [List.get?_take htake, List.get?_drop]
    exact hget
  exact List.get?_mem hget2

lemma parseDemanda_ok_inv {L : List String} {t : CarregadoT}
    (h : parseInstanciaDemanda L = Except.ok t) :
    ∃ s0 n caps sN na alunos,
      pyIndex L 0 = Except.ok s0 ∧ pyInt s0 = Except.ok n ∧
      lerInts (pySlice L 1 (n + 1)) = Except.ok caps ∧
      pyIndex L (n + 1) = Except.ok sN ∧ pyInt sN = Except.ok na ∧
      lerAlunos L (n + 2) na.toNat = Except.ok alunos := by
  have h2 : Except.bind (pyIndex L 0) (fun a =>
      Except.bind (pyInt a) (fun numSalas =>
        Except.bind (lerInts (pySlice L 1 (numSalas + 1))) (fun capacidades =>
          Except.bind (pyIndex L (numSalas + 1)) (fun b =>
            Except.bind (pyInt b) (fun numAlunos =>
              Except.bind (lerAlunos L (numSalas + 2) numAlunos.toNat)
                (fun alunos => Except.ok (numAlunos, numSalas, capacidades,
                  alunos.map (fun u => u.2.2), alunos.map (fun u => u.1),
                  alunos.map (fun u => u.2.1)))))))) = Except.ok t := h
  cases e0 : pyIndex L 0 with
  | error e => rw [e0] at h2; simp only [Except.bind] at h2; exact absurd h2 (by simp)
  | ok s0 =>
  rw [e0] at h2
  simp only [Except.bind] at h2
  cases e1 : pyInt s0 with
  | error e => rw [e1] at h2; simp only [Except.bind] at h2; exact absurd h2 (by simp)
  | ok n =>
  rw [e1] at h2
  simp only [Except.bind] at h2
  cases e2 : lerInts (pySlice L 1 (n + 1)) with
  | error e => rw [e2] at h2; simp only [Except.bind] at h2; exact absurd h2 (by simp)
  | ok caps =>
  rw [e2] at h2
  simp only [Except.bind] at h2
  cases e3 : pyIndex L (n + 1) with
  | error e => rw [e3] at h2; simp only [Except.bind] at h2; exact absurd h2 (by simp)
  | ok sN =>
  rw [e3] at h2
  simp only [Except.bind] at h2
  cases e4 : pyInt sN with
  | error e => rw [e4] at h2; simp only [Except.bind] at h2; exact absurd h2 (by simp)
  | ok na =>
  rw [e4] at h2
  simp only [Except.bind] at h2
  cases e5 : lerAlunos L (n + 2) na.toNat with
  | error e => rw [e5] at h2; simp only [Except.bind] at h2; exact absurd h2 (by simp)
  | ok alunos =>
  exact ⟨s0, n, caps, sN, na, alunos, rfl, e1, e2, e3, e4, e5⟩

lemma malFormado_falha_demanda {raw : List String} (hm : MalFormado raw) :
    ∃ e, carregarInstancia raw = Except.error e := by
  cases hv : carregarInstancia raw with
  | error e => exact ⟨e, rfl⟩
  | ok t =>
      exfalso
      have hv2 : parseInstanciaDemanda (cleanLines raw) = Except.ok t := hv
      obtain ⟨s0, n, caps, sN, na, alunos, e0, e1, e2, e3, e4, e5⟩ :=
        parseDemanda_ok_inv hv2
      have g0 : (cleanLines raw).get? 0 = some s0 := by
        have := pyIndex_nonneg_inv (by omega) e0
        simpa using this
      simp only [MalFormado] at hm
      rcases hm with hL |
        ⟨s0h, eh, hg, hp⟩ |
        ⟨s0h, nh, hg, hp, hnn, hlen⟩ |
        ⟨s0h, nh, jh, sjh, eh, hg, hp, hnn, hj, hgj, hpj⟩ |
        ⟨s0h, nh, sNh, eh, hg, hp, hnn, hgN, hpN⟩ |
        ⟨s0h, nh, sNh, nah, hg, hp, hnn, hgN, hpN, hna, hlen⟩ |
        ⟨s0h, nh, sNh, nah, jh, sjh, hg, hp, hnn, hgN, hpN, hna, hj, hgj, hbad⟩
      · rw [hL] at g0
        exact absurd g0 (by simp)
      · rw [g0] at hg
        injection hg with hs
        rw [← hs, e1] at hp
        exact Except.noConfusion hp
      · rw [g0] at hg
        injection hg with hs
        rw [← hs, e1] at hp
        injection hp with hn
        have gN := pyIndex_nonneg_inv (show (0 : Int) ≤ n + 1 by omega) e3
        have hlt := get?_some_lt gN
        omega
      · rw [g0] at hg
        injection hg with hs
        rw [← hs, e1] at hp
        injection hp with hn
        have hmem : sjh ∈ pySlice (cleanLines raw) 1 (n + 1) :=
          mem_pySlice (by omega) (by omega) hgj
        obtain ⟨v, hpv⟩ := lerInts_ok_mem e2 sjh hmem
        rw [hpv] at hpj
        exact Except.noConfusion hpj
      · rw [g0] at hg
        injection hg with hs
        rw [← hs, e1] at hp
        injection hp with hn
        have gN : (cleanLines raw).get? (n + 1).toNat = some sN :=
          pyIndex_nonneg_inv (by omega) e3
        have htn : (n + 1).toNat = nh.toNat + 1 := by omega
        rw [htn] at gN
        rw [gN] at hgN
        injection hgN with hsN
        rw [← hsN, e4] at hpN
        exact Except.noConfusion hpN
      · rw [g0] at hg
        injection hg with hs
        rw [← hs, e1] at hp
        injection hp with hn
        have gN : (cleanLines raw).get? (n + 1).toNat = some sN :=
          pyIndex_nonneg_inv (by omega) e3
        have htn : (n + 1).toNat = nh.toNat + 1 := by omega
        rw [htn] at gN
        rw [gN] at hgN
        injection hgN with hsN
        rw [← hsN, e4] at hpN
        injection hpN with hna2
        have hlenN := get?_some_lt gN
        rcases Nat.eq_zero_or_pos na.toNat with hz | hpos
        · omega
        · obtain ⟨s, t2, hidx, _⟩ :=
            lerAlunos_ok_inv na.toNat (cleanLines raw) (n + 2) alunos e5
              (na.toNat - 1) (by omega)
          have gj : (cleanLines raw).get?
              ((n + 2) + ((na.toNat - 1 : Nat) : Int)).toNat = some s :=
            pyIndex_nonneg_inv (by omega) hidx
          have hltj := get?_some_lt gj
          have harith : ((n + 2) + ((na.toNat - 1 : Nat) : Int)).toNat =
              n.toNat + 1 + na.toNat := by omega
          rw [harith] at hltj
          omega
      · rw [g0] at hg
        injection hg with hs
        rw [← hs, e1] at hp
        injection hp with hn
        have gN : (cleanLines raw).get? (n + 1).toNat = some sN :=
          pyIndex_nonneg_inv (by omega) e3
        have htn : (n + 1).toNat = nh.toNat + 1 := by omega
        rw [htn] at gN
        rw [gN] at hgN
        injection hgN with hsN
        rw [← hsN, e4] at hpN
        injection hpN with hna2
        obtain ⟨s, t2, hidx, hun⟩ :=
          lerAlunos_ok_inv na.toNat (cleanLines raw) (n + 2) alunos e5 jh
            (by omega)
        have gj : (cleanLines raw).get? ((n + 2) + (jh : Int)).toNat = some s :=
          pyIndex_nonneg_inv (by omega) hidx
        have harith : ((n + 2) + (jh : Int)).toNat = nh.toNat + 2 + jh := by omega
        rw [harith] at gj
        rw [gj] at hgj
        injection hgj with hsj
        rw [← hsj] at hbad
        obtain ⟨t1, u2, u3, hsplit, hp1, hp2, hp3⟩ := unpack3_ok_inv hun
        rcases hbad with hlen3 | ⟨tok, eh, htok, hptok⟩
        · rw [hsplit] at hlen3
          exact hlen3 (by simp)
        · rw [hsplit] at htok
          simp only [List.mem_cons, List.mem_singleton] at htok
          rcases htok with h1 | h2 | h3 | hf
          · rw [h1, hp1] at hptok
            exact Except.noConfusion hptok
          · rw [h2, hp2] at hptok
            exact Except.noConfusion hptok
          · rw [h3, hp3] at hptok
            exact Except.noConfusion hptok
          · exact absurd hf (by simp)

/-! ## Lemmas about the reference-mapped policy -/

lemma referenciasUnicas_sorted (refs : List Int) :
    List.Sorted (fun a b => a ≤ b) (referenciasUnicas refs) :=
  List.sorted_insertionSort _ _

lemma referenciasUnicas_nodup (refs : List Int) :
    (referenciasUnicas refs).Nodup :=
  (List.perm_insertionSort _ _).nodup_iff.mpr (List.nodup_dedup refs)

lemma referenciasUnicas_mem (refs : List Int) (r : Int) :
    r ∈ referenciasUnicas refs ↔ r ∈ refs := by
  unfold referenciasUnicas
  rw [(List.perm_insertionSort _ _).mem_iff]
  exact List.mem_dedup

lemma referenciaSala_length (refs : List Int) (nb : Nat) :
    (referenciaSala refs nb).length = nb := by
  simp [referenciaSala]

lemma referenciaSala_get? (refs : List Int) (nb k : Nat) (hk : k < nb) :
    (referenciaSala refs nb).get? k =
      some (if k < min (referenciasUnicas refs).length nb then
        some ((referenciasUnicas refs).getD k 0) else none) := by
  unfold referenciaSala
  rw [List.get?_map, List.get?_range hk]
  rfl

lemma referenciaSala_getD (refs : List Int) (nb b : Nat) (hb : b < nb) :
    (referenciaSala refs nb).getD b none =
      if b < min (referenciasUnicas refs).length nb then
        some ((referenciasUnicas refs).getD b 0) else none := by
  rw [List.getD_eq_getElem?_getD, ← List.get?_eq_getElem?,
    referenciaSala_get? refs nb b hb]
  rfl

/-! ## Lemmas about the model -/

lemma bint_nonneg (b : Bool) : 0 ≤ bint b := by
  cases b <;> simp [bint]

lemma pesoSala_eq_soma (pesos : List Int) (nA : Nat) (x : Nat → Nat → Bool)
    (b : Nat) :
    pesoSala pesos nA x b =
      ∑ i in Finset.range nA, if x i b then pesos.getD i 0 else 0 := by
  unfold pesoSala
  apply Finset.sum_congr rfl
  intro i _
  by_cases h : x i b <;> simp [bint, h]

lemma soma_bint_alocado {x : Nat → Nat → Bool} {nS : Nat} {i : Nat}
    (h : (∑ b in Finset.range nS, bint (x i b)) ≤ 1) :
    (∑ b in Finset.range nS, bint (x i b)) =
      if alocado x nS i then 1 else 0 := by
  by_cases ha : alocado x nS i = true
  · rw [if_pos ha]
    obtain ⟨b, hb, hxb⟩ : ∃ b, b ∈ Finset.range nS ∧ x i b = true := by
      unfold alocado at ha
      rw [List.any_eq_true] at ha
      obtain ⟨b, hmem, hxb⟩ := ha
      exact ⟨b, by simpa using hmem, by simpa using hxb⟩
    have h1 : (1 : Int) ≤ ∑ c in Finset.range nS, bint (x i c) := by
      have hb1 : bint (x i b) = 1 := by simp [bint, hxb]
      calc (1 : Int) = bint (x i b) := hb1.symm
        _ ≤ ∑ c in Finset.range nS, bint (x i c) :=
            Finset.single_le_sum (fun c _ => bint_nonneg (x i c)) hb
    omega
  · rw [if_neg ha]
    apply Finset.sum_eq_zero
    intro b hb
    rw [Finset.mem_range] at hb
    have hfalse : x i b = false := by
      unfold alocado at ha
      rw [List.any_eq_true] at ha
      push_neg at ha
      have := ha b (by simpa using hb)
      simpa using this
    simp [bint, hfalse]

lemma valorObjetivo_alocados {valores : List Int} {nA nS : Nat}
    {x : Nat → Nat → Bool} (h : AlocacaoUnica nA nS x) :
    valorObjetivo valores nA nS x =
      ∑ i in Finset.range nA, if alocado x nS i then valores.getD i 0 else 0 := by
  unfold valorObjetivo
  apply Finset.sum_congr rfl
  intro i hi
  rw [Finset.mem_range] at hi
  have hsum := soma_bint_alocado (h i hi)
  calc ∑ b in Finset.range nS, bint (x i b) * valores.getD i 0
      = (∑ b in Finset.range nS, bint (x i b)) * valores.getD i 0 :=
        (Finset.sum_mul _ _ _).symm
    _ = (if alocado x nS i then 1 else 0) * valores.getD i 0 := by rw [hsum]
    _ = if alocado x nS i then valores.getD i 0 else 0 := by
        by_cases h2 : alocado x nS i <;> simp [h2]

lemma totalPeso_unitario {pesos : List Int} {nA nS : Nat}
    {x : Nat → Nat → Bool} (hu : AlocacaoUnica nA nS x)
    (hw : ∀ i, i < nA → pesos.getD i 0 = 1) :
    totalPesoAlocado pesos nA nS x =
      (((Finset.range nA).filter (fun i => alocado x nS i = true)).card : Int) := by
  unfold totalPesoAlocado
  rw [Finset.sum_comm]
  have h1 : ∀ i ∈ Finset.range nA,
      (∑ b in Finset.range nS, if x i b then pesos.getD i 0 else 0) =
        if alocado x nS i then 1 else 0 := by
    intro i hi
    rw [Finset.mem_range] at hi
    have : (∑ b in Finset.range nS, if x i b then pesos.getD i 0 else 0) =
        ∑ b in Finset.range nS, bint (x i b) := by
      apply Finset.sum_congr rfl
      intro b _
      rw [hw i hi]
      rfl
    rw [this]
    exact soma_bint_alocado (hu i hi)
  rw [Finset.sum_congr rfl h1]
  rw [Finset.sum_boole]

lemma alocados_particao (nA nS : Nat) (x : Nat → Nat → Bool) :
    ((Finset.range nA).filter (fun i => alocado x nS i = true)).card +
      numNaoAlocados nA nS x = nA := by
  unfold numNaoAlocados
  rw [Finset.filter_card_add_filter_neg_card_eq_card]
  exact Finset.card_range nA

/-! ## Concrete helper facts -/

lemma xA_viavel : SolucaoViavelMapeada [10, 5] [4, 6, 5] [1, 1, 2] 3 2 xA := by
  unfold SolucaoViavelMapeada CompatMapeada AlocacaoUnica RespeitaCapacidade
  refine ⟨?_, ?_, ?_⟩ <;> decide

lemma bemFormadoExemplo :
    arquivoBemFormado [("1"), ("5"), ("1"), ("1 2 3")] [5] [(1, 2, 3)] := by
  refine ⟨("1"), [("5")], ("1"), [("1 2 3")], ?_, ?_, ?_, ?_, ?_⟩ <;> decide

lemma bemFormadoNegativo :
    arquivoBemFormado [("1"), ("-7"), ("2"), ("-1 -2 -3"), ("4 -5 6")]
      [-7] [(-1, -2, -3), (4, -5, 6)] := by
  refine ⟨("1"), [("-7")], ("2"), [("-1 -2 -3"), ("4 -5 6")], ?_, ?_, ?_, ?_, ?_⟩ <;>
    decide

/-! ## Claim theorems -/

/-- C1: under the reference-mapped policy the bin-reference mapping assigns
the k-th smallest distinct item reference to bin k for every
`k < min(#distinct, num_bins)` (`referenciasUnicas` is the sorted
duplicate-free list of the item references); every bin with index at least
the number of distinct references receives no reference; a reference that
is not among the `num_bins` smallest distinct values equals no bin's
reference, so it resolves to no bin; and when fewer distinct references
exist than bins the condition only raises the warning flag — the mapping
(of full length `num_bins`) is still produced. -/
theorem c1_mapeamento_referencias (refs : List Int) (nb : Nat) :
    (List.Sorted (fun a b => a ≤ b) (referenciasUnicas refs) ∧
      (referenciasUnicas refs).Nodup ∧
      (∀ r, r ∈ referenciasUnicas refs ↔ r ∈ refs)) ∧
    (∀ k, k < min (referenciasUnicas refs).length nb →
      (referenciaSala refs nb).get? k =
        some (some ((referenciasUnicas refs).getD k 0))) ∧
    (∀ k, (referenciasUnicas refs).length ≤ k → k < nb →
      (referenciaSala refs nb).get? k = some none) ∧
    (∀ r : Int, r ∉ (referenciasUnicas refs).take nb →
      ∀ b, b < nb → (referenciaSala refs nb).getD b none ≠ some r) ∧
    ((referenciasUnicas refs).length < nb → avisoReferencias refs nb = true) ∧
    (referenciaSala refs nb).length = nb := by
  refine ⟨⟨referenciasUnicas_sorted refs, referenciasUnicas_nodup refs,
      referenciasUnicas_mem refs⟩, ?_, ?_, ?_, ?_, referenciaSala_length refs nb⟩
  · intro k hk
    rw [referenciaSala_get? refs nb k (by omega), if_pos hk]
  · intro k hk1 hk2
    rw [referenciaSala_get? refs nb k hk2, if_neg (by omega)]
  · intro r hr b hb hcontra
    rw [referenciaSala_getD refs nb b hb] at hcontra
    by_cases hcase : b < min (referenciasUnicas refs).length nb
    · rw [if_pos hcase] at hcontra
      injection hcontra with hval
      apply hr
      have hget : (referenciasUnicas refs).get? b =
          some ((referenciasUnicas refs).getD b 0) := by
        rw [List.getD_eq_getElem?_getD, ← List.get?_eq_getElem?]
        cases hg : (referenciasUnicas refs).get? b with
        | none =>
            have := List.get?_eq_none.mp hg
            omega
        | some v => rfl
      rw [hval] at hget
      have htake : ((referenciasUnicas refs).take nb).get? b = some r := by
        rw [List.get?_take (by omega)]
        exact hget
      exact List.get?_mem htake
    · rw [if_neg hcase] at hcontra
      exact Option.noConfusion hcontra
  · intro hlt
    unfold avisoReferencias
    simp only [bne_iff_ne, ne_eq]
    omega

/-- Witness for C1 at the reference list [3, 1, 3] with 3 bins: bin 0 gets
the smallest distinct reference 1, bin 2 (index ≥ 2 distinct values) gets
none, the absent reference 7 resolves to no bin, and the warning fires. -/
theorem c1_testemunha :
    (referenciaSala [3, 1, 3] 3).get? 0 = some (some 1) ∧
    (referenciaSala [3, 1, 3] 3).get? 2 = some none ∧
    (referenciaSala [3, 1, 3] 3).getD 1 none ≠ some 7 ∧
    avisoReferencias [3, 1, 3] 3 = true := by
  have h := c1_mapeamento_referencias [3, 1, 3] 3
  refine ⟨?_, ?_, ?_, ?_⟩
  · have h2 := h.2.1 0 (by decide)
    rw [show (referenciasUnicas [3, 1, 3]).getD 0 0 = 1 by decide] at h2
    exact h2
  · exact h.2.2.1 2 (by decide) (by decide)
  · exact h.2.2.2.1 7 (by decide) 1 (by decide)
  · exact h.2.2.2.2.1 (by decide)

/-- C2: in both pipeline variants, every feasible solution of the built
model satisfies, for every bin b, that the total weight of the items
assigned to b is at most the capacity of b. -/
theorem c2_capacidade (caps pesos refs : List Int) (nA nS : Nat)
    (x : Nat → Nat → Bool) (b : Nat) (hb : b < nS) :
    (SolucaoViavelMapeada caps pesos refs nA nS x →
      (∑ i in Finset.range nA, if x i b then pesos.getD i 0 else 0) ≤
        caps.getD b 0) ∧
    (SolucaoViavelDireta caps pesos refs nA nS x →
      (∑ i in Finset.range nA, if x i b then pesos.getD i 0 else 0) ≤
        caps.getD b 0) := by
  constructor
  · intro hf
    rw [← pesoSala_eq_soma]
    exact hf.2.2 b hb
  · intro hf
    rw [← pesoSala_eq_soma]
    exact hf.2.2 b hb

/-- Witness for C2: the Scenario A optimum respects bin 0's capacity. -/
theorem c2_testemunha :
    (∑ i in Finset.range 3, if xA i 0 then ([4, 6, 5] : List Int).getD i 0 else 0) ≤
      ([10, 5] : List Int).getD 0 0 :=
  (c2_capacidade [10, 5] [4, 6, 5] [1, 1, 2] 3 2 xA 0 (by norm_num)).1 xA_viavel

/-- C3: in both pipeline variants the objective value of a feasible
solution — the coefficient `values[i]` being set on every pair — equals
the sum of `values[i]` over exactly the assigned items. -/
theorem c3_objetivo (caps pesos valores refs : List Int) (nA nS : Nat)
    (x : Nat → Nat → Bool) :
    (SolucaoViavelMapeada caps pesos refs nA nS x →
      valorObjetivo valores nA nS x =
        ∑ i in Finset.range nA, if alocado x nS i then valores.getD i 0 else 0) ∧
    (SolucaoViavelDireta caps pesos refs nA nS x →
      valorObjetivo valores nA nS x =
        ∑ i in Finset.range nA, if alocado x nS i then valores.getD i 0 else 0) := by
  constructor <;> intro hf <;> exact valorObjetivo_alocados hf.2.1

/-- Witness for C3 on the Scenario A optimum. -/
theorem c3_testemunha :
    valorObjetivo [10, 8, 6] 3 2 xA =
      ∑ i in Finset.range 3,
        if alocado xA 2 i then ([10, 8, 6] : List Int).getD i 0 else 0 :=
  (c3_objetivo [10, 5] [4, 6, 5] [10, 8, 6] [1, 1, 2] 3 2 xA).1 xA_viavel

/-- C4: in the direct-addressing model, `x[i, b]` is forced to 0 unless
`b = referencias[i] - 1`; consequently an item whose reference is
non-positive or exceeds `num_bins` is assigned to no bin in any feasible
solution. -/
theorem c4_enderecamento_direto (caps pesos refs : List Int) (nA nS : Nat)
    (x : Nat → Nat → Bool)
    (hf : SolucaoViavelDireta caps pesos refs nA nS x) :
    (∀ i, i < nA → ∀ b, b < nS → (b : Int) ≠ refs.getD i 0 - 1 →
      x i b = false) ∧
    (∀ i, i < nA → (refs.getD i 0 ≤ 0 ∨ (nS : Int) < refs.getD i 0) →
      ∀ b, b < nS → x i b = false) := by
  refine ⟨hf.1, ?_⟩
  intro i hi hr b hb
  apply hf.1 i hi b hb
  rcases hr with h1 | h2 <;> omega

/-- Witness for C4: an item with reference 0 stays unassigned in the
all-empty feasible solution. -/
theorem c4_testemunha : (fun _ _ => false : Nat → Nat → Bool) 0 0 = false :=
  (c4_enderecamento_direto [5] [1] [0] 1 1 (fun _ _ => false)
    (by
      unfold SolucaoViavelDireta CompatDireta AlocacaoUnica RespeitaCapacidade
      refine ⟨?_, ?_, ?_⟩ <;> decide)).2 0 (by norm_num) (Or.inl (by norm_num))
    0 (by norm_num)

/-- C5: on Scenario A (bins [10, 5]; items (4,10,1), (6,8,1), (5,6,2);
references {1, 2} mapped to bins {0, 1}) the assignment placing items 0
and 1 in bin 0 and item 2 in bin 1 is feasible with objective 24, and no
feasible solution of the built model exceeds 24. -/
theorem c5_cenarioA :
    (SolucaoViavelMapeada [10, 5] [4, 6, 5] [1, 1, 2] 3 2 xA ∧
      valorObjetivo [10, 8, 6] 3 2 xA = 24) ∧
    (∀ x, SolucaoViavelMapeada [10, 5] [4, 6, 5] [1, 1, 2] 3 2 x →
      valorObjetivo [10, 8, 6] 3 2 x ≤ 24) := by
  constructor
  · exact ⟨xA_viavel, by decide⟩
  · intro x hx
    have h01 : x 0 1 = false :=
      hx.1 0 (by norm_num) 1 (by norm_num) (Or.inr (by decide))
    have h11 : x 1 1 = false :=
      hx.1 1 (by norm_num) 1 (by norm_num) (Or.inr (by decide))
    have h20 : x 2 0 = false :=
      hx.1 2 (by norm_num) 0 (by norm_num) (Or.inr (by decide))
    unfold valorObjetivo
    rw [show (3 : Nat) = 2 + 1 from rfl, Finset.sum_range_succ,
      Finset.sum_range_succ, Finset.sum_range_succ, Finset.sum_range_zero]
    simp only [Finset.sum_range_succ, Finset.sum_range_zero]
    rw [h01, h11, h20]
    cases hx00 : x 0 0 <;> cases hx10 : x 1 0 <;> cases hx21 : x 2 1 <;>
      simp [bint]

/-- Witness for C5: the optimal value bound applied to the optimal
assignment itself. -/
theorem c5_testemunha : valorObjetivo [10, 8, 6] 3 2 xA ≤ 24 :=
  c5_cenarioA.2 xA c5_cenarioA.1.1

/-- C6 counterexample: on the file (1 bin of capacity 10; one item line
`2 3 4` meaning weight 2, value 3, reference 4) the loader returns the
6-tuple with the reference list [4] as the fourth component — not the
weight list [2] as the claimed order
`(num_items, num_bins, bin_capacities, item_weights, item_values,
item_references)` demands. -/
theorem c6_contraexemplo :
    carregarInstanciaMkp [("1"), ("10"), ("1"), ("2 3 4")] =
      Except.ok (1, 1, [10], [4], [2], [3]) ∧
    carregarInstanciaMkp [("1"), ("10"), ("1"), ("2 3 4")] ≠
      Except.ok (1, 1, [10], [2], [3], [4]) := by
  constructor <;> decide

/-- C6 (amended): on every well-formed file both loaders return the tuple
`(num_items, num_bins, bin_capacities, item_references, item_weights,
item_values)` — references before weights and values — with the three item
lists positionally aligned by item index in file order (component k of
each list comes from the k-th item line). -/
theorem c6_ordem_tupla {raw : List String} {caps : List Int}
    {itens : List (Int × Int × Int)} (h : arquivoBemFormado raw caps itens) :
    carregarInstanciaMkp raw =
      Except.ok ((itens.length : Int), (caps.length : Int), caps,
        itens.map (fun u => u.2.2), itens.map (fun u => u.1),
        itens.map (fun u => u.2.1)) ∧
    carregarInstancia raw =
      Except.ok ((itens.length : Int), (caps.length : Int), caps,
        itens.map (fun u => u.2.2), itens.map (fun u => u.1),
        itens.map (fun u => u.2.1)) :=
  carregar_bemFormado h

/-- Witness for C6 on a concrete well-formed file. -/
theorem c6_testemunha :
    carregarInstanciaMkp [("1"), ("5"), ("1"), ("1 2 3")] =
      Except.ok (1, 1, [5], [3], [1], [2]) ∧
    carregarInstancia [("1"), ("5"), ("1"), ("1 2 3")] =
      Except.ok (1, 1, [5], [3], [1], [2]) := by
  have h := c6_ordem_tupla bemFormadoExemplo
  simpa using h

/-- C7 counterexample: a feasible direct-addressing solution assigning the
single item of weight 2 to bin 1; the report's `não alocados` line prints
`num_alunos - total` where `total` accumulated weights, giving -1, which
is not the number of unassigned items (0). -/
theorem c7_contraexemplo :
    SolucaoViavelDireta [5] [2] [1] 1 1 xC7 ∧
    resumoNaoAlocados [2] 1 1 xC7 = -1 ∧
    numNaoAlocados 1 1 xC7 = 0 ∧
    resumoNaoAlocados [2] 1 1 xC7 ≠ (numNaoAlocados 1 1 xC7 : Int) := by
  refine ⟨?_, by decide, by decide, by decide⟩
  unfold SolucaoViavelDireta CompatDireta AlocacaoUnica RespeitaCapacidade
  refine ⟨?_, ?_, ?_⟩ <;> decide

/-- C7 (amended): the `não alocados` count printed by the direct-addressing
report equals the number of items not mapped to any bin whenever every item
weight is 1 (the accumulated `total_alunos_alocados` is really the total
assigned weight). -/
theorem c7_resumo (caps pesos refs : List Int) (nA nS : Nat)
    (x : Nat → Nat → Bool)
    (hf : SolucaoViavelDireta caps pesos refs nA nS x)
    (hw : ∀ i, i < nA → pesos.getD i 0 = 1) :
    resumoNaoAlocados pesos nA nS x = (numNaoAlocados nA nS x : Int) := by
  unfold resumoNaoAlocados
  rw [totalPeso_unitario hf.2.1 hw]
  have hpart := alocados_particao nA nS x
  omega

/-- Witness for C7 on a two-item unit-weight instance where item 1 stays
unassigned. -/
theorem c7_testemunha :
    resumoNaoAlocados [1, 1] 2 1 xC7 = (numNaoAlocados 2 1 xC7 : Int) :=
  c7_resumo [1] [1, 1] [1, 1] 2 1 xC7
    (by
      unfold SolucaoViavelDireta CompatDireta AlocacaoUnica RespeitaCapacidade
      refine ⟨?_, ?_, ?_⟩ <;> decide)
    (by decide)

/-- C8 counterexample: the file whose capacity line is missing and the
file whose item-count line is missing both fail with the very same
`IndexError`, whose message is the fixed string
`list index out of range` — the error does not identify which expected
field failed (no line number and no field name). -/
theorem c8_contraexemplo :
    carregarInstanciaMkp [("2")] = Except.error PyError.indexError ∧
    carregarInstanciaMkp [("0")] = Except.error PyError.indexError ∧
    mensagemErro PyError.indexError = "list index out of range" := by
  refine ⟨?_, ?_, rfl⟩ <;> decide

/-- C8 (amended): both loaders succeed on every well-formed file, and both
fail (with a generic `IndexError`/`ValueError`, not a field-identifying
`MalformedInstance` message) on every file that is shorter than required,
has a non-numeric token at a position where an integer is expected, or has
an item line that does not split into exactly three fields — the
slice-based loader fails by a different path, since its truncating
capacity slice cannot raise on a short file, but the item-count access or
the item loop then does. -/
theorem c8_erros_carregador :
    (∀ raw caps itens, arquivoBemFormado raw caps itens →
      (∃ t, carregarInstanciaMkp raw = Except.ok t) ∧
      (∃ t, carregarInstancia raw = Except.ok t)) ∧
    (∀ raw, MalFormado raw →
      (∃ e, carregarInstanciaMkp raw = Except.error e) ∧
      (∃ e, carregarInstancia raw = Except.error e)) := by
  constructor
  · intro raw caps itens h
    exact ⟨⟨_, (carregar_bemFormado h).1⟩, ⟨_, (carregar_bemFormado h).2⟩⟩
  · intro raw hm
    exact ⟨malFormado_falha hm, malFormado_falha_demanda hm⟩

/-- Witness for C8: a well-formed file loads in both loaders, and a file
with a non-numeric capacity line fails in both. -/
theorem c8_testemunha :
    ((∃ t, carregarInstanciaMkp [("1"), ("5"), ("1"), ("1 2 3")] =
        Except.ok t) ∧
      (∃ t, carregarInstancia [("1"), ("5"), ("1"), ("1 2 3")] =
        Except.ok t)) ∧
    ((∃ e, carregarInstanciaMkp [("1"), ("x")] = Except.error e) ∧
      (∃ e, carregarInstancia [("1"), ("x")] = Except.error e)) :=
  ⟨c8_erros_carregador.1 _ [5] [(1, 2, 3)] bemFormadoExemplo,
    c8_erros_carregador.2 _
      (by
        refine Or.inr (Or.inr (Or.inr (Or.inl
          ⟨("1"), 1, 0, ("x"), PyError.valueError ("x"),
            ?_, ?_, ?_, ?_, ?_, ?_⟩))) <;> decide)⟩

/-- C9: inserting or deleting whitespace-only lines anywhere in an
instance file changes neither loader's result: blank lines are removed
before any indexed access. -/
theorem c9_linhas_brancas {raw raw2 : List String} (h : BlankEdit raw raw2) :
    carregarInstanciaMkp raw = carregarInstanciaMkp raw2 ∧
    carregarInstancia raw = carregarInstancia raw2 := by
  have hcl := blankEdit_cleanLines h
  constructor
  · show parseInstanciaMkp (cleanLines raw) = parseInstanciaMkp (cleanLines raw2)
    rw [hcl]
  · show parseInstanciaDemanda (cleanLines raw) =
      parseInstanciaDemanda (cleanLines raw2)
    rw [hcl]

/-- Witness for C9: deleting the blank second line of a concrete file
leaves both loaders' results unchanged. -/
theorem c9_testemunha :
    carregarInstanciaMkp [("1"), ("  "), ("5"), ("1"), ("1 2 3")] =
      carregarInstanciaMkp [("1"), ("5"), ("1"), ("1 2 3")] ∧
    carregarInstancia [("1"), ("  "), ("5"), ("1"), ("1 2 3")] =
      carregarInstancia [("1"), ("5"), ("1"), ("1 2 3")] :=
  c9_linhas_brancas
    (BlankEdit.keep ("1") (BlankEdit.del ("  ") (by decide)
      (BlankEdit.keep ("5") (BlankEdit.keep ("1")
        (BlankEdit.keep ("1 2 3") BlankEdit.nil)))))

/-- C10: the loaders perform no sign or range validation — every
structurally well-formed file whose tokens parse as integers loads
successfully, returning the parsed capacities, references, weights and
values unchanged, negative values included. -/
theorem c10_sem_validacao {raw : List String} {caps : List Int}
    {itens : List (Int × Int × Int)} (h : arquivoBemFormado raw caps itens) :
    ∃ t, carregarInstanciaMkp raw = Except.ok t ∧
      carregarInstancia raw = Except.ok t ∧
      t.2.2.1 = caps ∧ t.2.2.2.1 = itens.map (fun u => u.2.2) ∧
      t.2.2.2.2.1 = itens.map (fun u => u.1) ∧
      t.2.2.2.2.2 = itens.map (fun u => u.2.1) := by
  obtain ⟨h1, h2⟩ := carregar_bemFormado h
  exact ⟨_, h1, h2, rfl, rfl, rfl, rfl⟩

/-- Witness for C10 on a file whose capacity, weights, values and
references are negative: both loaders return them unchanged. -/
theorem c10_testemunha :
    ∃ t, carregarInstanciaMkp
        [("1"), ("-7"), ("2"), ("-1 -2 -3"), ("4 -5 6")] = Except.ok t ∧
      carregarInstancia
        [("1"), ("-7"), ("2"), ("-1 -2 -3"), ("4 -5 6")] = Except.ok t ∧
      t.2.2.1 = [-7] ∧
      t.2.2.2.1 = [(-1, -2, -3), (4, -5, 6)].map (fun u => u.2.2) ∧
      t.2.2.2.2.1 = [(-1, -2, -3), (4, -5, 6)].map (fun u => u.1) ∧
      t.2.2.2.2.2 = [(-1, -2, -3), (4, -5, 6)].map (fun u => u.2.1) :=
  c10_sem_validacao bemFormadoNegativo
